import Mathlib

/-!
# wxSocketBase (wx/socket.h): event flags, socket flags, state queries, waits, pushback

A shallow embedding of `Extras/wxWidgets-2.9.0/include/wx/socket.h`.

* The enumerations, the bit masks built from them and the inline member
  functions of `wxSocketBase` are translated from the header.
* Member functions that the header only declares (both `DoWait` overloads,
  `WaitForRead`, `Pushback`, `GetPushback`, `Unread`, `Read`) are modelled
  from the specification; each such definition says so in its doc comment.

C `int` masks are `Int` with the two's complement operations `Int.land`
and `Int.lor`; `unsigned long` and `wxUint32` are `Nat` reduced modulo the
word size where the code does arithmetic on them.
-/

namespace WxSocket

/-! ## Types and constants -/

/-- Types of socket notifications (`enum wxSocketNotify`). -/
inductive wxSocketNotify where
  | wxSOCKET_INPUT
  | wxSOCKET_OUTPUT
  | wxSOCKET_CONNECTION
  | wxSOCKET_LOST
  deriving DecidableEq, Repr

namespace wxSocketNotify

/-- Enumerator values: none has an initialiser, so C++ numbers them from 0
in declaration order. -/
def val : wxSocketNotify → Int
  | wxSOCKET_INPUT => 0
  | wxSOCKET_OUTPUT => 1
  | wxSOCKET_CONNECTION => 2
  | wxSOCKET_LOST => 3

/-- All four enumerators, in declaration order. -/
def all : List wxSocketNotify :=
  [wxSOCKET_INPUT, wxSOCKET_OUTPUT, wxSOCKET_CONNECTION, wxSOCKET_LOST]

end wxSocketNotify

open wxSocketNotify in
/-- Value of `wxSOCKET_INPUT_FLAG = 1 << wxSOCKET_INPUT`. -/
def wxSOCKET_INPUT_FLAG : Int := (1 : Int) <<< wxSOCKET_INPUT.val

open wxSocketNotify in
/-- Value of `wxSOCKET_OUTPUT_FLAG = 1 << wxSOCKET_OUTPUT`. -/
def wxSOCKET_OUTPUT_FLAG : Int := (1 : Int) <<< wxSOCKET_OUTPUT.val

open wxSocketNotify in
/-- Value of `wxSOCKET_CONNECTION_FLAG = 1 << wxSOCKET_CONNECTION`. -/
def wxSOCKET_CONNECTION_FLAG : Int := (1 : Int) <<< wxSOCKET_CONNECTION.val

open wxSocketNotify in
/-- Value of `wxSOCKET_LOST_FLAG = 1 << wxSOCKET_LOST`. -/
def wxSOCKET_LOST_FLAG : Int := (1 : Int) <<< wxSOCKET_LOST.val

/-- The event flag declared for a notification kind. -/
def wxSocketNotify.flag : wxSocketNotify → Int
  | .wxSOCKET_INPUT => wxSOCKET_INPUT_FLAG
  | .wxSOCKET_OUTPUT => wxSOCKET_OUTPUT_FLAG
  | .wxSOCKET_CONNECTION => wxSOCKET_CONNECTION_FLAG
  | .wxSOCKET_LOST => wxSOCKET_LOST_FLAG

/-- A combination of event flags (`typedef int wxSocketEventFlags`). -/
abbrev wxSocketEventFlags := Int

/-- The mask obtained by OR-ing the flags of the kinds in `S`. -/
def eventMask (S : List wxSocketNotify) : wxSocketEventFlags :=
  S.foldr (fun k m => Int.lor k.flag m) 0

/-- C test `(mask & flag) != 0`. -/
def hasFlag (mask flag : Int) : Bool := decide (Int.land mask flag ≠ 0)

/-- Socket error kinds (`enum wxSocketError`). -/
inductive wxSocketError where
  | wxSOCKET_NOERROR
  | wxSOCKET_INVOP
  | wxSOCKET_IOERR
  | wxSOCKET_INVADDR
  | wxSOCKET_INVSOCK
  | wxSOCKET_NOHOST
  | wxSOCKET_INVPORT
  | wxSOCKET_WOULDBLOCK
  | wxSOCKET_TIMEDOUT
  | wxSOCKET_MEMERR
  | wxSOCKET_OPTERR
  deriving DecidableEq, Repr

namespace wxSocketError

/-- Enumerator values: `wxSOCKET_NOERROR = 0`, each following one is the
previous plus one. -/
def val : wxSocketError → Int
  | wxSOCKET_NOERROR => 0
  | wxSOCKET_INVOP => 1
  | wxSOCKET_IOERR => 2
  | wxSOCKET_INVADDR => 3
  | wxSOCKET_INVSOCK => 4
  | wxSOCKET_NOHOST => 5
  | wxSOCKET_INVPORT => 6
  | wxSOCKET_WOULDBLOCK => 7
  | wxSOCKET_TIMEDOUT => 8
  | wxSOCKET_MEMERR => 9
  | wxSOCKET_OPTERR => 10

/-- All eleven enumerators, in declaration order. -/
def all : List wxSocketError :=
  [wxSOCKET_NOERROR, wxSOCKET_INVOP, wxSOCKET_IOERR, wxSOCKET_INVADDR,
   wxSOCKET_INVSOCK, wxSOCKET_NOHOST, wxSOCKET_INVPORT, wxSOCKET_WOULDBLOCK,
   wxSOCKET_TIMEDOUT, wxSOCKET_MEMERR, wxSOCKET_OPTERR]

end wxSocketError

/-- Value of `wxSOCKET_NONE`. -/
def wxSOCKET_NONE : Int := 0
/-- Value of `wxSOCKET_NOWAIT`. -/
def wxSOCKET_NOWAIT : Int := 1
/-- Value of `wxSOCKET_WAITALL`. -/
def wxSOCKET_WAITALL : Int := 2
/-- Value of `wxSOCKET_BLOCK`. -/
def wxSOCKET_BLOCK : Int := 4
/-- Value of `wxSOCKET_REUSEADDR`. -/
def wxSOCKET_REUSEADDR : Int := 8
/-- Value of `wxSOCKET_BROADCAST`. -/
def wxSOCKET_BROADCAST : Int := 16
/-- Value of `wxSOCKET_NOBIND`. -/
def wxSOCKET_NOBIND : Int := 32

/-- A combination of socket flags (`typedef int wxSocketFlags`). -/
abbrev wxSocketFlags := Int

/-- The six socket option flags; `index` is the position in the declaration
after `wxSOCKET_NONE`. -/
inductive SocketFlag where
  | NOWAIT
  | WAITALL
  | BLOCK
  | REUSEADDR
  | BROADCAST
  | NOBIND
  deriving DecidableEq, Repr

namespace SocketFlag

/-- The enumerator value of each flag. -/
def value : SocketFlag → Int
  | NOWAIT => wxSOCKET_NOWAIT
  | WAITALL => wxSOCKET_WAITALL
  | BLOCK => wxSOCKET_BLOCK
  | REUSEADDR => wxSOCKET_REUSEADDR
  | BROADCAST => wxSOCKET_BROADCAST
  | NOBIND => wxSOCKET_NOBIND

/-- Position of the flag in the declaration, counted from 0. -/
def index : SocketFlag → Nat
  | NOWAIT => 0
  | WAITALL => 1
  | BLOCK => 2
  | REUSEADDR => 3
  | BROADCAST => 4
  | NOBIND => 5

/-- All six flags, in declaration order. -/
def all : List SocketFlag := [NOWAIT, WAITALL, BLOCK, REUSEADDR, BROADCAST, NOBIND]

end SocketFlag

/-- The `wxSocketFlags` value obtained by OR-ing the flags of `S`, starting
from `wxSOCKET_NONE`. -/
def socketFlags (S : List SocketFlag) : wxSocketFlags :=
  S.foldr (fun f m => Int.lor f.value m) wxSOCKET_NONE

/-- The flags whose bit is set in `v`, in declaration order. -/
def flagsOf (v : wxSocketFlags) : List SocketFlag :=
  SocketFlag.all.filter (fun f => hasFlag v f.value)

/-- Socket kind values (`enum wxSocketType`). -/
inductive wxSocketType where
  | wxSOCKET_UNINIT
  | wxSOCKET_CLIENT
  | wxSOCKET_SERVER
  | wxSOCKET_BASE
  | wxSOCKET_DATAGRAM
  deriving DecidableEq, Repr

/-! ## wxSocketBase -/

/-- Modelled from the spec: the State Snapshot pushed by `SaveState`, a copy
of flags, notify-enabled, eventMask, clientData and eventId. The header only
declares the stack `m_states`; the snapshot class is not in it. -/
structure wxSocketState where
  m_flags : wxSocketFlags
  m_notify : Bool
  m_eventmask : wxSocketEventFlags
  m_clientData : Nat
  m_id : Int
  deriving DecidableEq, Repr

/-- The data members of `wxSocketBase`. Pointers are addresses (`0` is
`NULL`), except `m_unread`, which is the content of the pushback buffer;
`m_localAddress` is an uninterpreted value. -/
structure wxSocketBase where
  m_impl : Nat
  m_type : wxSocketType
  m_flags : wxSocketFlags
  m_connected : Bool
  m_establishing : Bool
  m_reading : Bool
  m_writing : Bool
  m_closed : Bool
  m_lcount : Nat
  m_timeout : Nat
  m_states : List wxSocketState
  m_interrupt : Bool
  m_beingDeleted : Bool
  m_localAddress : Nat
  m_unread : List Nat
  m_unrd_size : Nat
  m_unrd_cur : Nat
  m_id : Int
  m_handler : Nat
  m_clientData : Nat
  m_notify : Bool
  m_eventmask : wxSocketEventFlags
  m_eventsgot : wxSocketEventFlags
  deriving DecidableEq, Repr

namespace wxSocketBase

/-- Inline `bool IsOk() const \x7b return m_impl != NULL; \x7d`. -/
def IsOk (s : wxSocketBase) : Bool := s.m_impl != 0

/-- Inline `bool Error() const \x7b return LastError() != wxSOCKET_NOERROR; \x7d`.
`LastError` is only declared in the header and is taken as a parameter; the
comparison is the comparison of the enumerator values. -/
def Error (LastError : wxSocketBase → wxSocketError) (s : wxSocketBase) : Bool :=
  (LastError s).val != wxSocketError.wxSOCKET_NOERROR.val

/-- Inline `bool IsClosed() const`. -/
def IsClosed (s : wxSocketBase) : Bool := s.m_closed

/-- Inline `bool IsConnected() const`. -/
def IsConnected (s : wxSocketBase) : Bool := s.m_connected

/-- Inline `bool IsDisconnected() const \x7b return !IsConnected(); \x7d`. -/
def IsDisconnected (s : wxSocketBase) : Bool := !s.IsConnected

/-- Inline `wxUint32 LastCount() const`. -/
def LastCount (s : wxSocketBase) : Nat := s.m_lcount

/-- Inline `void InterruptWait() \x7b m_interrupt = true; \x7d`. -/
def InterruptWait (s : wxSocketBase) : wxSocketBase := { s with m_interrupt := true }

/-- Inline `wxSocketFlags GetFlags() const`. -/
def GetFlags (s : wxSocketBase) : wxSocketFlags := s.m_flags

/-- Inline `bool IsNoWait() const \x7b return ((m_flags & wxSOCKET_NOWAIT) != 0); \x7d`. -/
def IsNoWait (s : wxSocketBase) : Bool := decide (Int.land s.m_flags wxSOCKET_NOWAIT ≠ 0)

/-- The invariants of the data model: connected implies not closed, and
establishing implies not connected. -/
def Invariant (s : wxSocketBase) : Prop :=
  (s.m_connected = true → s.m_closed = false) ∧
  (s.m_establishing = true → s.m_connected = false)

instance (s : wxSocketBase) : Decidable s.Invariant := by
  unfold Invariant
  infer_instance

end wxSocketBase

/-- The natural number with exactly the bits listed in `L` set. -/
def orPow (L : List Nat) : Nat := L.foldr (fun i m => 2 ^ i ||| m) 0

/-- Bit position of a notification kind. -/
def wxSocketNotify.bit (k : wxSocketNotify) : Nat := k.val.toNat

/-- A socket with every field zero, false or empty. -/
def zeroSocket : wxSocketBase where
  m_impl := 0
  m_type := wxSocketType.wxSOCKET_UNINIT
  m_flags := 0
  m_connected := false
  m_establishing := false
  m_reading := false
  m_writing := false
  m_closed := false
  m_lcount := 0
  m_timeout := 0
  m_states := []
  m_interrupt := false
  m_beingDeleted := false
  m_localAddress := 0
  m_unread := []
  m_unrd_size := 0
  m_unrd_cur := 0
  m_id := 0
  m_handler := 0
  m_clientData := 0
  m_notify := false
  m_eventmask := 0
  m_eventsgot := 0

/-! ## Machine arithmetic -/

/-- Product of two `unsigned long` values of `w` bits: reduced modulo `2 ^ w`. -/
def ulongMul (w a b : Nat) : Nat := (a * b) % 2 ^ w

/-- Conversion of an `unsigned long` of `w` bits to `long`: the value with the
same `w`-bit two's complement representation. -/
def toLong (w u : Nat) : Int :=
  if u % 2 ^ w < 2 ^ (w - 1) then ((u % 2 ^ w : Nat) : Int)
  else ((u % 2 ^ w : Nat) : Int) - ((2 ^ w : Nat) : Int)

/-- Largest value of a `long` of `w` bits. -/
def LONG_MAX (w : Nat) : Int := ((2 ^ (w - 1) : Nat) : Int) - 1

/-! ## Wait engine -/

/-- What a wait in progress sees at one turn of its loop: the conditions the
Readiness Source reports as currently true (an event-flag mask), whether
`InterruptWait()` was called since the previous turn, and the wall clock in
milliseconds. -/
structure Poll where
  events : wxSocketEventFlags
  interrupt : Bool
  now : Int

/-- The surroundings of one wait: the wall clock when the wait begins and what
each successive turn of its loop sees. -/
structure Timeline where
  start : Int
  poll : Nat → Poll

/-- Modelled from the spec: the outcomes of the Wait Engine contract
`wait(requestedFlags, timeoutMillis)`, which is the body of `DoWait` that the
header only declares. -/
inductive WaitOutcome where
  | flagsSatisfied (which : wxSocketEventFlags)
  | lost
  | timedOut
  | interrupted
  deriving DecidableEq, Repr

/-- Modelled from the spec: the `int` that `DoWait` returns for an outcome. The
comment on its declaration gives -1 for a lost connection, true for a requested
event and false for an expired timeout; an interrupted wait saw neither a lost
connection nor a requested event and is returned as false. -/
def WaitOutcome.toInt : WaitOutcome → Int
  | .flagsSatisfied _ => 1
  | .lost => -1
  | .timedOut => 0
  | .interrupted => 0

namespace wxSocketBase

/-- Modelled from the spec: the timeout in milliseconds a wait runs with; a
negative argument means the configured `m_timeout`, which is in seconds. -/
def waitMillis (s : wxSocketBase) (timeout : Int) : Int :=
  if timeout < 0 then (s.m_timeout : Int) * 1000 else timeout

/-- Modelled from the spec: the loop of the Wait Engine, from turn `i` on. At
each turn: a lost connection returns `lost` before anything else; otherwise a
requested flag that holds returns `flagsSatisfied`; otherwise a set interrupt
flag returns `interrupted` and is cleared; otherwise a passed deadline (or a
timeout of exactly zero, which polls once) returns `timedOut`; otherwise the
loop yields and repeats. `fuel` bounds the number of turns. -/
def waitLoop (env : Timeline) (deadline : Int) (pollOnce : Bool) (flags : wxSocketEventFlags) :
    Nat → Nat → wxSocketBase → Option (WaitOutcome × wxSocketBase)
  | 0, _, _ => none
  | fuel + 1, i, s =>
    let p := env.poll i
    let s1 := if p.interrupt then s.InterruptWait else s
    if hasFlag p.events wxSOCKET_LOST_FLAG then some (WaitOutcome.lost, s1)
    else if hasFlag p.events flags then
      some (WaitOutcome.flagsSatisfied (Int.land p.events flags), s1)
    else if s1.m_interrupt then
      some (WaitOutcome.interrupted, { s1 with m_interrupt := false })
    else if pollOnce || decide (deadline ≤ p.now) then some (WaitOutcome.timedOut, s1)
    else waitLoop env deadline pollOnce flags fuel (i + 1) s1

/-- Modelled from the spec: `int DoWait(long timeout, wxSocketEventFlags flags)`,
declared in the header without a body. The interrupt flag is cleared at the
start of the wait, the deadline is the clock at the start plus the timeout,
and the loop runs from turn 0. -/
def DoWait (env : Timeline) (fuel : Nat) (timeout : Int) (flags : wxSocketEventFlags)
    (s : wxSocketBase) : Option (Int × wxSocketBase) :=
  let t := s.waitMillis timeout
  (waitLoop env (env.start + t) (t == 0) flags fuel 0 { s with m_interrupt := false }).map
    (fun r => (r.1.toInt, r.2))

/-- Inline `int DoWaitWithTimeout(wxSocketEventFlags flags)
\x7b return DoWait(m_timeout*1000, flags); \x7d`. The product is computed in
`unsigned long` (`m_timeout` is one, of `w` bits) and converted to the `long`
parameter of `DoWait`. -/
def DoWaitWithTimeout (w : Nat) (env : Timeline) (fuel : Nat) (s : wxSocketBase)
    (flags : wxSocketEventFlags) : Option (Int × wxSocketBase) :=
  s.DoWait env fuel (toLong w (ulongMul w s.m_timeout 1000)) flags

/-- Modelled from the spec: the helper
`int DoWait(long seconds, long milliseconds, wxSocketEventFlags flags)`,
declared in the header without a body: it uses the configured timeout if
`seconds == -1` and the specified timeout otherwise. -/
def DoWaitSeconds (env : Timeline) (fuel : Nat) (seconds milliseconds : Int)
    (flags : wxSocketEventFlags) (s : wxSocketBase) : Option (Int × wxSocketBase) :=
  s.DoWait env fuel
    (if seconds = -1 then (s.m_timeout : Int) * 1000 else seconds * 1000 + milliseconds) flags

/-- Modelled from the spec: `bool WaitForRead(long seconds, long milliseconds)`,
declared in the header without a body: a wait for the input flag, true when
the socket can be read from without blocking, which is the case for every
result of the wait but false. -/
def WaitForRead (env : Timeline) (fuel : Nat) (seconds milliseconds : Int)
    (s : wxSocketBase) : Option (Bool × wxSocketBase) :=
  (s.DoWaitSeconds env fuel seconds milliseconds wxSOCKET_INPUT_FLAG).map
    (fun r => (r.1 != 0, r.2))

/-- Inline `bool IsData() \x7b return WaitForRead(0, 0); \x7d`. -/
def IsData (env : Timeline) (fuel : Nat) (s : wxSocketBase) : Option (Bool × wxSocketBase) :=
  s.WaitForRead env fuel 0 0

/-! ## Pushback buffer and Read -/

/-- The bytes of the pushback buffer that have not been consumed yet. -/
def pending (s : wxSocketBase) : List Nat := s.m_unread.drop s.m_unrd_cur

/-- The pushback fields describe a buffer: the size is the length of the data
and the cursor is inside it. -/
def PushbackOk (s : wxSocketBase) : Prop :=
  s.m_unrd_size = s.m_unread.length ∧ s.m_unrd_cur ≤ s.m_unrd_size

instance (s : wxSocketBase) : Decidable s.PushbackOk := by
  unfold PushbackOk
  infer_instance

/-- Modelled from the spec: `void Pushback(const void *buffer, wxUint32 size)`,
declared in the header without a body: prepends `size` bytes to the pushback
buffer, growing it, so that they are the next bytes observed. The sizes are
`wxUint32`. -/
def Pushback (s : wxSocketBase) (buffer : List Nat) (size : Nat) : wxSocketBase :=
  { s with
    m_unread := buffer.take size ++ s.pending
    m_unrd_size := (size + (s.m_unrd_size - s.m_unrd_cur)) % 2 ^ 32
    m_unrd_cur := 0 }

/-- Modelled from the spec:
`wxUint32 GetPushback(void *buffer, wxUint32 size, bool peek)`, declared in the
header without a body: copies out up to `size` pending bytes; unless peeking
it advances the cursor, and resets the buffer once everything is consumed.
Returns the count, the bytes and the new state. -/
def GetPushback (s : wxSocketBase) (size : Nat) (peek : Bool) : Nat × List Nat × wxSocketBase :=
  let count := min size (s.m_unrd_size - s.m_unrd_cur)
  let out := s.pending.take count
  if peek then (count, out, s)
  else if s.m_unrd_cur + count = s.m_unrd_size then
    (count, out, { s with m_unread := [], m_unrd_size := 0, m_unrd_cur := 0 })
  else (count, out, { s with m_unrd_cur := s.m_unrd_cur + count })

/-- Modelled from the spec:
`wxSocketBase& Unread(const void *buffer, wxUint32 nbytes)`, declared in the
header without a body: pushes the bytes back and records the transfer size. -/
def Unread (s : wxSocketBase) (buffer : List Nat) (nbytes : Nat) : wxSocketBase :=
  { s.Pushback buffer nbytes with m_lcount := nbytes }

/-- Modelled from the spec: `wxSocketBase& Read(void* buffer, wxUint32 nbytes)`,
declared in the header without a body: first drains the pushback buffer; only
for a remainder does it pull from the Readiness Source, which is external:
`transfer rest s src` stands for that whole phase (waiting and receiving as the
flags say) and returns the bytes received with the new socket and source
states. Returns the bytes read, the socket (with the transfer size recorded)
and the source. -/
def Read (Src : Type) (transfer : Nat → wxSocketBase → Src → List Nat × wxSocketBase × Src)
    (s : wxSocketBase) (src : Src) (nbytes : Nat) : List Nat × wxSocketBase × Src :=
  let g := s.GetPushback nbytes false
  let rest := nbytes - g.1
  if rest = 0 then (g.2.1, { g.2.2 with m_lcount := g.1 }, src)
  else
    let t := transfer rest g.2.2 src
    (g.2.1 ++ t.1, { t.2.1 with m_lcount := (g.1 + t.1.length) % 2 ^ 32 }, t.2.2)

end wxSocketBase

/-- A timeline on which, at every turn, input is ready and the connection is
lost (events `wxSOCKET_INPUT_FLAG | wxSOCKET_LOST_FLAG`), with the clock at 0. -/
def lostTimeline : Timeline where
  start := 0
  poll := fun _ => { events := 9, interrupt := false, now := 0 }

/-! ## Bit masks: auxiliary facts -/

theorem testBit_orPow (L : List Nat) (j : Nat) :
    (orPow L).testBit j = decide (j ∈ L) := by
  induction L with
  | nil => simp [orPow]
  | cons i L ih =>
    have hstep : orPow (i :: L) = 2 ^ i ||| orPow L := rfl
    rw [hstep, Nat.testBit_or, ih, Nat.testBit_two_pow]
    by_cases h : i = j
    · subst h; simp
    · have h2 : ¬ j = i := fun e => h e.symm
      simp [h, h2]

theorem orPow_lt (L : List Nat) (n : Nat) (h : ∀ i ∈ L, i < n) : orPow L < 2 ^ n := by
  induction L with
  | nil => simp [orPow]
  | cons i L ih =>
    have hstep : orPow (i :: L) = 2 ^ i ||| orPow L := rfl
    rw [hstep]
    apply Nat.or_lt_two_pow
    · exact Nat.pow_lt_pow_right (by decide) (h i (List.mem_cons_self _ _))
    · exact ih (fun k hk => h k (List.mem_cons_of_mem _ hk))

theorem orPow_congr (L M : List Nat) (h : ∀ i, i ∈ L ↔ i ∈ M) : orPow L = orPow M := by
  apply Nat.eq_of_testBit_eq
  intro j
  rw [testBit_orPow, testBit_orPow]
  exact decide_eq_decide.mpr (h j)

theorem nat_ne_zero_iff_testBit (x : Nat) : x ≠ 0 ↔ ∃ j, x.testBit j = true := by
  constructor
  · intro h
    exact Nat.ne_zero_implies_bit_true h
  · rintro ⟨j, hj⟩ h0
    subst h0
    simp at hj

/-- In two's complement, `m & 2^k` is non-zero exactly when bit `k` of `m` is set. -/
theorem land_two_pow_ne_zero (m : Int) (k : Nat) :
    Int.land m ((2 ^ k : Nat) : Int) ≠ 0 ↔ Int.testBit m k = true := by
  have hbits : ∀ j, (Int.land m ((2 ^ k : Nat) : Int)).testBit j
      = (m.testBit j && decide (k = j)) := by
    intro j
    rw [Int.testBit_land]
    congr 1
    show Nat.testBit (2 ^ k) j = _
    exact Nat.testBit_two_pow
  obtain ⟨x, hx⟩ : ∃ x : Nat, Int.land m ((2 ^ k : Nat) : Int) = (x : Int) := by
    cases m with
    | ofNat a => exact ⟨a &&& 2 ^ k, rfl⟩
    | negSucc a => exact ⟨Nat.ldiff (2 ^ k) a, rfl⟩
  rw [hx] at hbits ⊢
  have hb : ∀ j, x.testBit j = (m.testBit j && decide (k = j)) := hbits
  rw [Int.natCast_ne_zero, nat_ne_zero_iff_testBit]
  constructor
  · rintro ⟨j, hj⟩
    rw [hb] at hj
    simp at hj
    obtain ⟨h1, h2⟩ := hj
    subst h2
    exact h1
  · intro h
    exact ⟨k, by rw [hb]; simp [h]⟩

/-- Testing a mask built from bit positions against one power of two. -/
theorem hasFlag_orPow (L : List Nat) (k : Nat) :
    hasFlag ((orPow L : Nat) : Int) ((2 ^ k : Nat) : Int) = true ↔ k ∈ L := by
  unfold hasFlag
  rw [decide_eq_true_iff, land_two_pow_ne_zero]
  show (orPow L).testBit k = true ↔ _
  rw [testBit_orPow, decide_eq_true_iff]

theorem wxSocketNotify.flag_eq (k : wxSocketNotify) :
    k.flag = ((2 ^ k.bit : Nat) : Int) := by
  cases k <;> decide

theorem wxSocketNotify.bit_injective (a b : wxSocketNotify) (h : a.bit = b.bit) : a = b := by
  cases a <;> cases b <;> first | rfl | (exact absurd h (by decide))

theorem eventMask_eq (S : List wxSocketNotify) :
    eventMask S = ((orPow (S.map wxSocketNotify.bit) : Nat) : Int) := by
  induction S with
  | nil => rfl
  | cons k S ih =>
    have hstep : eventMask (k :: S) = Int.lor k.flag (eventMask S) := rfl
    rw [hstep, ih, wxSocketNotify.flag_eq]
    rfl

theorem hasFlag_eventMask (S : List wxSocketNotify) (k : wxSocketNotify) :
    hasFlag (eventMask S) k.flag = true ↔ k ∈ S := by
  rw [eventMask_eq, wxSocketNotify.flag_eq, hasFlag_orPow, List.mem_map]
  constructor
  · rintro ⟨a, ha, hab⟩
    rw [← wxSocketNotify.bit_injective a k hab]
    exact ha
  · intro h
    exact ⟨k, h, rfl⟩

theorem SocketFlag.value_eq (f : SocketFlag) : f.value = ((2 ^ f.index : Nat) : Int) := by
  cases f <;> decide

theorem SocketFlag.index_injective (a b : SocketFlag) (h : a.index = b.index) : a = b := by
  cases a <;> cases b <;> first | rfl | (exact absurd h (by decide))

theorem SocketFlag.index_lt (f : SocketFlag) : f.index < 6 := by
  cases f <;> decide

theorem socketFlags_eq (S : List SocketFlag) :
    socketFlags S = ((orPow (S.map SocketFlag.index) : Nat) : Int) := by
  induction S with
  | nil => rfl
  | cons f S ih =>
    have hstep : socketFlags (f :: S) = Int.lor f.value (socketFlags S) := rfl
    rw [hstep, ih, SocketFlag.value_eq]
    rfl

theorem hasFlag_socketFlags (S : List SocketFlag) (f : SocketFlag) :
    hasFlag (socketFlags S) f.value = true ↔ f ∈ S := by
  rw [socketFlags_eq, SocketFlag.value_eq, hasFlag_orPow, List.mem_map]
  constructor
  · rintro ⟨a, ha, hab⟩
    rw [← SocketFlag.index_injective a f hab]
    exact ha
  · intro h
    exact ⟨f, h, rfl⟩

theorem socketFlags_range (S : List SocketFlag) : 0 ≤ socketFlags S ∧ socketFlags S ≤ 63 := by
  rw [socketFlags_eq]
  have h : orPow (S.map SocketFlag.index) < 2 ^ 6 := by
    apply orPow_lt
    intro i hi
    obtain ⟨f, _, rfl⟩ := List.mem_map.mp hi
    exact f.index_lt
  constructor
  · exact Int.natCast_nonneg _
  · have h2 : orPow (S.map SocketFlag.index) ≤ 63 := by omega
    exact_mod_cast h2

theorem socketFlags_congr (S T : List SocketFlag) (h : ∀ f, f ∈ S ↔ f ∈ T) :
    socketFlags S = socketFlags T := by
  rw [socketFlags_eq, socketFlags_eq]
  congr 1
  apply orPow_congr
  intro i
  simp only [List.mem_map]
  constructor
  · rintro ⟨f, hf, rfl⟩
    exact ⟨f, (h f).mp hf, rfl⟩
  · rintro ⟨f, hf, rfl⟩
    exact ⟨f, (h f).mpr hf, rfl⟩

theorem socketFlags_flagsOf (v : Int) (h0 : 0 ≤ v) (h63 : v ≤ 63) :
    socketFlags (flagsOf v) = v := by
  have key : ∀ n : Fin 64, socketFlags (flagsOf ((n.val : Nat) : Int)) = ((n.val : Nat) : Int) := by
    decide
  obtain ⟨n, rfl⟩ := Int.eq_ofNat_of_zero_le h0
  have hn : n < 64 := by omega
  exact key ⟨n, hn⟩

theorem mem_flagsOf (v : Int) (f : SocketFlag) : f ∈ flagsOf v ↔ hasFlag v f.value = true := by
  unfold flagsOf
  rw [List.mem_filter]
  constructor
  · exact fun h => h.2
  · intro h
    exact ⟨by cases f <;> decide, h⟩

theorem testBit_zero_iff (m : Int) : Int.testBit m 0 = true ↔ m % 2 = 1 := by
  cases m with
  | ofNat n =>
    show Nat.testBit n 0 = true ↔ _
    rw [Nat.testBit_zero, decide_eq_true_iff]
    show n % 2 = 1 ↔ ((n : Int)) % 2 = 1
    omega
  | negSucc n =>
    show (!Nat.testBit n 0) = true ↔ _
    rw [Nat.testBit_zero, Int.negSucc_eq]
    by_cases h : n % 2 = 1
    · simp only [h, decide_True, Bool.not_true, Bool.false_eq_true, false_iff]
      omega
    · simp only [h, decide_False, Bool.not_false, true_iff]
      omega

theorem IsNoWait_iff_testBit (s : wxSocketBase) :
    s.IsNoWait = true ↔ Int.testBit s.m_flags 0 = true := by
  unfold wxSocketBase.IsNoWait
  rw [decide_eq_true_iff]
  exact land_two_pow_ne_zero s.m_flags 0

theorem testBit_zero_socketFlags (S : List SocketFlag) (h : SocketFlag.NOWAIT ∉ S) :
    Int.testBit (socketFlags S) 0 = false := by
  have h1 := hasFlag_socketFlags S SocketFlag.NOWAIT
  have h2 : hasFlag (socketFlags S) SocketFlag.NOWAIT.value = true ↔
      Int.testBit (socketFlags S) 0 = true := by
    unfold hasFlag
    rw [decide_eq_true_iff]
    exact land_two_pow_ne_zero (socketFlags S) 0
  cases hb : Int.testBit (socketFlags S) 0 with
  | false => rfl
  | true => exact absurd (h1.mp (h2.mpr hb)) h

/-! ## Event flags and socket flags -/

/-- C3: the notification kinds INPUT, OUTPUT, CONNECTION, LOST are numbered
0, 1, 2, 3 and there are no others; the event flag of kind `k` is `1 << k`;
for every collection `S` of kinds the mask obtained by OR-ing the flags of `S`
has the flag of `k` set exactly when `k` is in `S`; in particular no
combination of the INPUT, OUTPUT and CONNECTION flags has the LOST flag set. -/
theorem event_flags_are_bits :
    wxSocketNotify.all.map wxSocketNotify.val = [0, 1, 2, 3] ∧
    wxSocketNotify.all.map wxSocketNotify.flag = [1, 2, 4, 8] ∧
    (∀ k : wxSocketNotify, k ∈ wxSocketNotify.all) ∧
    (∀ k : wxSocketNotify, k.flag = (1 : Int) <<< k.val) ∧
    (∀ (S : List wxSocketNotify) (k : wxSocketNotify),
      hasFlag (eventMask S) k.flag = true ↔ k ∈ S) ∧
    (∀ S : List wxSocketNotify, wxSocketNotify.wxSOCKET_LOST ∉ S →
      hasFlag (eventMask S) wxSOCKET_LOST_FLAG = false) := by
  refine ⟨rfl, by decide, ?_, ?_, hasFlag_eventMask, ?_⟩
  · intro k
    cases k <;> decide
  · intro k
    cases k <;> rfl
  · intro S hS
    have h := hasFlag_eventMask S wxSocketNotify.wxSOCKET_LOST
    cases hb : hasFlag (eventMask S) wxSOCKET_LOST_FLAG with
    | false => rfl
    | true => exact absurd (h.mp hb) hS

/-- Witness for C3: the combination of the INPUT, OUTPUT and CONNECTION flags
is 7 and does not have the LOST flag set. -/
theorem event_flags_are_bits_witness :
    eventMask [wxSocketNotify.wxSOCKET_INPUT, wxSocketNotify.wxSOCKET_OUTPUT,
      wxSocketNotify.wxSOCKET_CONNECTION] = 7 ∧
    hasFlag (eventMask [wxSocketNotify.wxSOCKET_INPUT, wxSocketNotify.wxSOCKET_OUTPUT,
      wxSocketNotify.wxSOCKET_CONNECTION]) wxSOCKET_LOST_FLAG = false :=
  ⟨by decide, event_flags_are_bits.2.2.2.2.2 _ (by decide)⟩

/-- C4: `wxSOCKET_NONE` is 0 and the six flags NOWAIT .. NOBIND are the
distinct powers of two 1, 2, 4, 8, 16, 32; OR-ing the flags of any collection
gives a value in 0..63 in which the bit of a flag is set exactly when the flag
is in the collection; two collections give the same value exactly when they
hold the same flags; and every value in 0..63 is the encoding of one
collection of flags, unique up to the flags it holds. -/
theorem socket_flags_are_a_bitset :
    wxSOCKET_NONE = 0 ∧
    SocketFlag.all.map SocketFlag.value = [2 ^ 0, 2 ^ 1, 2 ^ 2, 2 ^ 3, 2 ^ 4, 2 ^ 5] ∧
    (∀ f : SocketFlag, f ∈ SocketFlag.all) ∧
    (∀ S : List SocketFlag, 0 ≤ socketFlags S ∧ socketFlags S ≤ 63) ∧
    (∀ (S : List SocketFlag) (f : SocketFlag),
      hasFlag (socketFlags S) f.value = true ↔ f ∈ S) ∧
    (∀ S T : List SocketFlag,
      socketFlags S = socketFlags T ↔ ∀ f, f ∈ S ↔ f ∈ T) ∧
    (∀ v : Int, 0 ≤ v → v ≤ 63 →
      socketFlags (flagsOf v) = v ∧
      ∀ S : List SocketFlag, socketFlags S = v → ∀ f, f ∈ S ↔ f ∈ flagsOf v) := by
  refine ⟨rfl, by decide, ?_, socketFlags_range, hasFlag_socketFlags, ?_, ?_⟩
  · intro f
    cases f <;> decide
  · intro S T
    constructor
    · intro h f
      rw [← hasFlag_socketFlags S f, ← hasFlag_socketFlags T f, h]
    · exact socketFlags_congr S T
  · intro v h0 h63
    refine ⟨socketFlags_flagsOf v h0 h63, ?_⟩
    intro S hS f
    rw [mem_flagsOf, ← hS]
    exact (hasFlag_socketFlags S f).symm

/-- Witness for C4: the value 37 encodes NOWAIT, BLOCK and NOBIND. -/
theorem socket_flags_are_a_bitset_witness :
    flagsOf 37 = [SocketFlag.NOWAIT, SocketFlag.BLOCK, SocketFlag.NOBIND] ∧
    socketFlags (flagsOf 37) = 37 :=
  ⟨by decide, (socket_flags_are_a_bitset.2.2.2.2.2.2 37 (by decide) (by decide)).1⟩

/-- C8: `IsNoWait()` is true exactly when bit 0, the NOWAIT bit of value 1, is
set in `m_flags` (that is, when `m_flags` is odd), and OR-ing in or masking out
any combination of the other five flags does not change the result. -/
theorem IsNoWait_depends_only_on_NOWAIT_bit :
    wxSOCKET_NOWAIT = 1 ∧
    (∀ s : wxSocketBase, s.IsNoWait = true ↔ Int.testBit s.m_flags 0 = true) ∧
    (∀ s : wxSocketBase, s.IsNoWait = true ↔ s.m_flags % 2 = 1) ∧
    (∀ (s : wxSocketBase) (S : List SocketFlag), SocketFlag.NOWAIT ∉ S →
      wxSocketBase.IsNoWait { s with m_flags := Int.lor s.m_flags (socketFlags S) }
        = s.IsNoWait ∧
      wxSocketBase.IsNoWait { s with m_flags := Int.land s.m_flags (Int.lnot (socketFlags S)) }
        = s.IsNoWait) := by
  refine ⟨rfl, IsNoWait_iff_testBit, ?_, ?_⟩
  · intro s
    rw [IsNoWait_iff_testBit, testBit_zero_iff]
  · intro s S hS
    have hz := testBit_zero_socketFlags S hS
    constructor
    · rw [Bool.eq_iff_iff, IsNoWait_iff_testBit, IsNoWait_iff_testBit]
      show Int.testBit (Int.lor s.m_flags (socketFlags S)) 0 = true ↔ _
      rw [Int.testBit_lor, hz, Bool.or_false]
    · rw [Bool.eq_iff_iff, IsNoWait_iff_testBit, IsNoWait_iff_testBit]
      show Int.testBit (Int.land s.m_flags (Int.lnot (socketFlags S))) 0 = true ↔ _
      rw [Int.testBit_land, Int.testBit_lnot, hz]
      simp

/-- Witness for C8: adding WAITALL and NOBIND to a socket with NOWAIT set. -/
theorem IsNoWait_depends_only_on_NOWAIT_bit_witness :
    SocketFlag.NOWAIT ∉ [SocketFlag.WAITALL, SocketFlag.NOBIND] ∧
    wxSocketBase.IsNoWait { zeroSocket with m_flags := 1 } = true ∧
    wxSocketBase.IsNoWait
      { ({ zeroSocket with m_flags := 1 } : wxSocketBase) with
        m_flags := Int.lor ({ zeroSocket with m_flags := 1 } : wxSocketBase).m_flags
          (socketFlags [SocketFlag.WAITALL, SocketFlag.NOBIND]) }
      = wxSocketBase.IsNoWait { zeroSocket with m_flags := 1 } :=
  ⟨by decide, by decide,
    (IsNoWait_depends_only_on_NOWAIT_bit.2.2.2 { zeroSocket with m_flags := 1 }
      [SocketFlag.WAITALL, SocketFlag.NOBIND] (by decide)).1⟩

/-! ## State queries -/

/-- C6: `Error()` is true exactly when `LastError()` differs from
`wxSOCKET_NOERROR`; NOERROR has the value 0, the eleven error kinds have the
pairwise distinct values 0..10, and NOERROR is the only kind for which
`Error()` is false. -/
theorem Error_iff_LastError_ne_NOERROR
    (LastError : wxSocketBase → wxSocketError) (s : wxSocketBase) :
    (s.Error LastError = true ↔ LastError s ≠ wxSocketError.wxSOCKET_NOERROR) ∧
    (s.Error LastError = false ↔ LastError s = wxSocketError.wxSOCKET_NOERROR) ∧
    wxSocketError.wxSOCKET_NOERROR.val = 0 ∧
    wxSocketError.all.map wxSocketError.val = [0, 1, 2, 3, 4, 5, 6, 7, 8, 9, 10] ∧
    (∀ e : wxSocketError, e ∈ wxSocketError.all) ∧
    (∀ a b : wxSocketError, a.val = b.val → a = b) := by
  refine ⟨?_, ?_, rfl, rfl, ?_, ?_⟩
  · unfold wxSocketBase.Error
    cases LastError s <;> decide
  · unfold wxSocketBase.Error
    cases LastError s <;> decide
  · intro e
    cases e <;> decide
  · intro a b
    cases a <;> cases b <;> decide

/-- C10: `IsDisconnected()` is the negation of `IsConnected()`, which is the
`m_connected` field: changing `m_closed` and `m_establishing` changes neither
result, and a socket that is not connected (still establishing or never
connected) reports `IsDisconnected() = true`. -/
theorem IsDisconnected_is_not_IsConnected (s : wxSocketBase) :
    s.IsDisconnected = (!s.IsConnected) ∧
    s.IsConnected = s.m_connected ∧
    (∀ c e : Bool,
      wxSocketBase.IsConnected { s with m_closed := c, m_establishing := e } = s.IsConnected ∧
      wxSocketBase.IsDisconnected { s with m_closed := c, m_establishing := e }
        = s.IsDisconnected) ∧
    (∀ c e : Bool,
      wxSocketBase.IsDisconnected
        { s with m_connected := false, m_closed := c, m_establishing := e } = true) := by
  refine ⟨rfl, rfl, fun c e => ⟨rfl, rfl⟩, fun c e => rfl⟩

/-- C9: `InterruptWait()` sets `m_interrupt` to true and changes no other
field; calling it twice gives the same state as calling it once; and it
preserves the invariants connected implies not closed and establishing implies
not connected. -/
theorem InterruptWait_sets_only_m_interrupt (s : wxSocketBase) :
    s.InterruptWait.m_interrupt = true ∧
    { s.InterruptWait with m_interrupt := s.m_interrupt } = s ∧
    (s.InterruptWait.m_flags = s.m_flags ∧
      s.InterruptWait.m_timeout = s.m_timeout ∧
      s.InterruptWait.m_connected = s.m_connected ∧
      s.InterruptWait.m_establishing = s.m_establishing ∧
      s.InterruptWait.m_closed = s.m_closed ∧
      s.InterruptWait.m_lcount = s.m_lcount ∧
      s.InterruptWait.m_unread = s.m_unread ∧
      s.InterruptWait.m_unrd_size = s.m_unrd_size ∧
      s.InterruptWait.m_unrd_cur = s.m_unrd_cur ∧
      s.InterruptWait.m_eventmask = s.m_eventmask ∧
      s.InterruptWait.m_eventsgot = s.m_eventsgot ∧
      s.InterruptWait.m_clientData = s.m_clientData) ∧
    s.InterruptWait.InterruptWait = s.InterruptWait ∧
    (s.Invariant → s.InterruptWait.Invariant) := by
  refine ⟨rfl, rfl, ⟨rfl, rfl, rfl, rfl, rfl, rfl, rfl, rfl, rfl, rfl, rfl, rfl⟩, rfl, ?_⟩
  intro h
  exact h

/-- Witness for C9: a connected socket that is not closed satisfies the
invariants, and still does after `InterruptWait()`. -/
theorem InterruptWait_sets_only_m_interrupt_witness :
    wxSocketBase.Invariant { zeroSocket with m_connected := true } ∧
    wxSocketBase.Invariant
      (wxSocketBase.InterruptWait { zeroSocket with m_connected := true }) :=
  ⟨⟨fun _ => rfl, fun h => absurd h (by decide)⟩,
    (InterruptWait_sets_only_m_interrupt { zeroSocket with m_connected := true }).2.2.2.2
      ⟨fun _ => rfl, fun h => absurd h (by decide)⟩⟩

/-! ## Waits -/

theorem toLong_ulongMul_of_le (w t : Nat) (h : (1000 : Int) * (t : Int) ≤ LONG_MAX w) :
    ulongMul w t 1000 = t * 1000 ∧ toLong w (ulongMul w t 1000) = (1000 : Int) * (t : Int) := by
  unfold LONG_MAX at h
  have hpos : 0 < 2 ^ (w - 1) := Nat.pos_pow_of_pos _ (by decide)
  have hlt : t * 1000 < 2 ^ (w - 1) := by
    have : ((t * 1000 : Nat) : Int) < ((2 ^ (w - 1) : Nat) : Int) := by
      push_cast
      push_cast at h
      omega
    exact_mod_cast this
  have hle : 2 ^ (w - 1) ≤ 2 ^ w := Nat.pow_le_pow_right (by decide) (Nat.sub_le w 1)
  have hmod : (t * 1000) % 2 ^ w = t * 1000 := Nat.mod_eq_of_lt (lt_of_lt_of_le hlt hle)
  have hmul : ulongMul w t 1000 = t * 1000 := hmod
  refine ⟨hmul, ?_⟩
  unfold toLong
  rw [hmul, hmod, if_pos hlt]
  push_cast
  ring

theorem toLong_le_LONG_MAX (w u : Nat) (hw : 0 < w) : toLong w u ≤ LONG_MAX w := by
  unfold toLong LONG_MAX
  have hpow : 2 ^ w = 2 * 2 ^ (w - 1) := by
    obtain ⟨v, rfl⟩ : ∃ v, w = v + 1 := ⟨w - 1, by omega⟩
    simp [pow_succ, Nat.mul_comm]
  have hmod : u % 2 ^ w < 2 ^ w := Nat.mod_lt _ (Nat.pos_pow_of_pos _ (by decide))
  split
  · rename_i h
    have : ((u % 2 ^ w : Nat) : Int) < ((2 ^ (w - 1) : Nat) : Int) := by exact_mod_cast h
    omega
  · have h1 : ((u % 2 ^ w : Nat) : Int) < ((2 ^ w : Nat) : Int) := by exact_mod_cast hmod
    have h2 : ((2 ^ w : Nat) : Int) = 2 * ((2 ^ (w - 1) : Nat) : Int) := by exact_mod_cast hpow
    omega

/-- The timeout `DoWait` receives is the mathematical product exactly when the
product fits a `long`. -/
theorem toLong_ulongMul_eq_iff (w t : Nat) (hw : 0 < w) :
    toLong w (ulongMul w t 1000) = (1000 : Int) * (t : Int) ↔
      (1000 : Int) * (t : Int) ≤ LONG_MAX w := by
  constructor
  · intro h
    rw [← h]
    exact toLong_le_LONG_MAX w _ hw
  · intro h
    exact (toLong_ulongMul_of_le w t h).2

/-- C5 (as stated, refuted): with a 64-bit `long` and `m_timeout` of
9223372036854776 seconds the product does not wrap as an `unsigned long`, but
`DoWait` receives the negative timeout -9223372036854775616, not 1000 times
`m_timeout`; with 18446744073709552 seconds the `unsigned long` product itself
wraps to 384; with a 32-bit `long` the same happens from 2147484 seconds
(about 25 days) on. -/
theorem DoWaitWithTimeout_timeout_overflows :
    (∀ (env : Timeline) (fuel : Nat) (flags : wxSocketEventFlags),
      wxSocketBase.DoWaitWithTimeout 64 env fuel
          { zeroSocket with m_timeout := 9223372036854776 } flags
        = wxSocketBase.DoWait env fuel (-9223372036854775616) flags
          { zeroSocket with m_timeout := 9223372036854776 }) ∧
    ulongMul 64 9223372036854776 1000 = 9223372036854776 * 1000 ∧
    toLong 64 (ulongMul 64 9223372036854776 1000) = -9223372036854775616 ∧
    toLong 64 (ulongMul 64 9223372036854776 1000) < 0 ∧
    toLong 64 (ulongMul 64 9223372036854776 1000) ≠ 1000 * 9223372036854776 ∧
    ulongMul 64 18446744073709552 1000 = 384 ∧
    toLong 32 (ulongMul 32 2147484 1000) = -2147483296 := by
  refine ⟨?_, by decide, by decide, by decide, by decide, by decide, by decide⟩
  intro env fuel flags
  have h : toLong 64 (ulongMul 64 9223372036854776 1000) = -9223372036854775616 := by decide
  unfold wxSocketBase.DoWaitWithTimeout
  show wxSocketBase.DoWait env fuel (toLong 64 (ulongMul 64 9223372036854776 1000)) flags _ = _
  rw [h]

/-- C5 (amended): `DoWaitWithTimeout(f)` returns the result of `DoWait` with
the same flags and the timeout `m_timeout * 1000` computed in `unsigned long`
and converted to `long`; when 1000 times `m_timeout` is at most `LONG_MAX` the
multiplication does not wrap and the timeout `DoWait` receives is the
non-negative mathematical product. -/
theorem DoWaitWithTimeout_eq_DoWait (w : Nat) (env : Timeline) (fuel : Nat) (s : wxSocketBase)
    (flags : wxSocketEventFlags) (h : (1000 : Int) * (s.m_timeout : Int) ≤ LONG_MAX w) :
    s.DoWaitWithTimeout w env fuel flags
      = s.DoWait env fuel ((1000 : Int) * (s.m_timeout : Int)) flags ∧
    ulongMul w s.m_timeout 1000 = s.m_timeout * 1000 ∧
    toLong w (ulongMul w s.m_timeout 1000) = (1000 : Int) * (s.m_timeout : Int) ∧
    0 ≤ toLong w (ulongMul w s.m_timeout 1000) := by
  obtain ⟨h1, h2⟩ := toLong_ulongMul_of_le w s.m_timeout h
  refine ⟨?_, h1, h2, ?_⟩
  · unfold wxSocketBase.DoWaitWithTimeout
    rw [h2]
  · rw [h2]
    positivity

/-- Witness for C5 (amended): a 64-bit `long` and a timeout of two seconds. -/
theorem DoWaitWithTimeout_eq_DoWait_witness :
    (1000 : Int) * (2 : Nat) ≤ LONG_MAX 64 ∧
    toLong 64 (ulongMul 64 2 1000) = 2000 ∧
    wxSocketBase.DoWaitWithTimeout 64 lostTimeline 1 { zeroSocket with m_timeout := 2 }
        wxSOCKET_INPUT_FLAG
      = wxSocketBase.DoWait lostTimeline 1 2000 wxSOCKET_INPUT_FLAG
          { zeroSocket with m_timeout := 2 } := by
  have h := DoWaitWithTimeout_eq_DoWait 64 lostTimeline 1 { zeroSocket with m_timeout := 2 }
    wxSOCKET_INPUT_FLAG (by decide)
  exact ⟨by decide, h.2.2.1, h.1⟩

theorem waitLoop_step_quiet (env : Timeline) (deadline : Int) (pollOnce : Bool)
    (flags : wxSocketEventFlags) (fuel i : Nat) (s : wxSocketBase)
    (hs : s.m_interrupt = false)
    (h1 : hasFlag (env.poll i).events wxSOCKET_LOST_FLAG = false)
    (h2 : hasFlag (env.poll i).events flags = false)
    (h3 : (env.poll i).interrupt = false)
    (h4 : (pollOnce || decide (deadline ≤ (env.poll i).now)) = false) :
    wxSocketBase.waitLoop env deadline pollOnce flags (fuel + 1) i s
      = wxSocketBase.waitLoop env deadline pollOnce flags fuel (i + 1) s := by
  rw [wxSocketBase.waitLoop]
  simp only [h1, h2, h3, hs, h4, Bool.false_eq_true, if_false]

theorem waitLoop_at (env : Timeline) (deadline : Int) (pollOnce : Bool)
    (flags : wxSocketEventFlags) (i : Nat) (s : wxSocketBase) (hs : s.m_interrupt = false)
    (hdec : pollOnce = true ∨ hasFlag (env.poll i).events wxSOCKET_LOST_FLAG = true ∨
        hasFlag (env.poll i).events flags = true ∨
        (env.poll i).interrupt = true ∨ deadline ≤ (env.poll i).now) :
    ∃ (o : WaitOutcome) (s' : wxSocketBase),
      (∀ fuel, 0 < fuel →
        wxSocketBase.waitLoop env deadline pollOnce flags fuel i s = some (o, s')) ∧
      (hasFlag (env.poll i).events wxSOCKET_LOST_FLAG = true → o = WaitOutcome.lost) ∧
      (hasFlag (env.poll i).events wxSOCKET_LOST_FLAG = false →
        hasFlag (env.poll i).events flags = true →
        o = WaitOutcome.flagsSatisfied (Int.land (env.poll i).events flags)) ∧
      (hasFlag (env.poll i).events wxSOCKET_LOST_FLAG = false →
        hasFlag (env.poll i).events flags = false → (env.poll i).interrupt = true →
        o = WaitOutcome.interrupted) ∧
      (hasFlag (env.poll i).events wxSOCKET_LOST_FLAG = false →
        hasFlag (env.poll i).events flags = false → (env.poll i).interrupt = false →
        o = WaitOutcome.timedOut ∧ (pollOnce = true ∨ deadline ≤ (env.poll i).now)) := by
  cases h1 : hasFlag (env.poll i).events wxSOCKET_LOST_FLAG with
  | true =>
    refine ⟨WaitOutcome.lost, if (env.poll i).interrupt then s.InterruptWait else s,
      ?_, ?_, ?_, ?_, ?_⟩
    · intro fuel hf
      obtain ⟨f, rfl⟩ : ∃ f, fuel = f + 1 := ⟨fuel - 1, by omega⟩
      rw [wxSocketBase.waitLoop]
      simp only [h1, if_true]
    · intro _
      rfl
    · intro h
      exact absurd h (by decide)
    · intro h
      exact absurd h (by decide)
    · intro h
      exact absurd h (by decide)
  | false =>
    cases h2 : hasFlag (env.poll i).events flags with
    | true =>
      refine ⟨WaitOutcome.flagsSatisfied (Int.land (env.poll i).events flags),
        if (env.poll i).interrupt then s.InterruptWait else s, ?_, ?_, ?_, ?_, ?_⟩
      · intro fuel hf
        obtain ⟨f, rfl⟩ : ∃ f, fuel = f + 1 := ⟨fuel - 1, by omega⟩
        rw [wxSocketBase.waitLoop]
        simp only [h1, h2, if_true, Bool.false_eq_true, if_false]
      · intro h
        exact absurd h (by decide)
      · intro _ _
        rfl
      · intro _ h
        exact absurd h (by decide)
      · intro _ h
        exact absurd h (by decide)
    | false =>
      cases h3 : (env.poll i).interrupt with
      | true =>
        refine ⟨WaitOutcome.interrupted, { s.InterruptWait with m_interrupt := false },
          ?_, ?_, ?_, ?_, ?_⟩
        · intro fuel hf
          obtain ⟨f, rfl⟩ : ∃ f, fuel = f + 1 := ⟨fuel - 1, by omega⟩
          rw [wxSocketBase.waitLoop]
          simp only [h1, h2, h3, if_true, Bool.false_eq_true, if_false,
            wxSocketBase.InterruptWait]
        · intro h
          exact absurd h (by decide)
        · intro _ h
          exact absurd h (by decide)
        · intro _ _ _
          rfl
        · intro _ _ h
          exact absurd h (by decide)
      | false =>
        have h4 : (pollOnce || decide (deadline ≤ (env.poll i).now)) = true := by
          rcases hdec with h | h | h | h | h
          · simp [h]
          · rw [h1] at h; exact absurd h (by decide)
          · rw [h2] at h; exact absurd h (by decide)
          · rw [h3] at h; exact absurd h (by decide)
          · simp [h]
        refine ⟨WaitOutcome.timedOut, s, ?_, ?_, ?_, ?_, ?_⟩
        · intro fuel hf
          obtain ⟨f, rfl⟩ : ∃ f, fuel = f + 1 := ⟨fuel - 1, by omega⟩
          rw [wxSocketBase.waitLoop]
          simp only [h1, h2, h3, hs, h4, if_true, Bool.false_eq_true, if_false]
        · intro h
          exact absurd h (by decide)
        · intro _ h
          exact absurd h (by decide)
        · intro _ _ h
          exact absurd h (by decide)
        · intro _ _ _
          refine ⟨rfl, ?_⟩
          simpa using h4

theorem waitLoop_decides (env : Timeline) (deadline : Int) (pollOnce : Bool)
    (flags : wxSocketEventFlags) :
    ∀ (n i : Nat) (s : wxSocketBase), s.m_interrupt = false →
      (pollOnce = true ∨ hasFlag (env.poll (i + n)).events wxSOCKET_LOST_FLAG = true ∨
        hasFlag (env.poll (i + n)).events flags = true ∨
        (env.poll (i + n)).interrupt = true ∨ deadline ≤ (env.poll (i + n)).now) →
      ∃ (k : Nat) (o : WaitOutcome) (s' : wxSocketBase), i ≤ k ∧ k ≤ i + n ∧
        (∀ fuel, k - i < fuel →
          wxSocketBase.waitLoop env deadline pollOnce flags fuel i s = some (o, s')) ∧
        (∀ j, i ≤ j → j < k →
          hasFlag (env.poll j).events wxSOCKET_LOST_FLAG = false ∧
          hasFlag (env.poll j).events flags = false ∧ (env.poll j).interrupt = false) ∧
        (hasFlag (env.poll k).events wxSOCKET_LOST_FLAG = true → o = WaitOutcome.lost) ∧
        (hasFlag (env.poll k).events wxSOCKET_LOST_FLAG = false →
          hasFlag (env.poll k).events flags = true →
          o = WaitOutcome.flagsSatisfied (Int.land (env.poll k).events flags)) ∧
        (hasFlag (env.poll k).events wxSOCKET_LOST_FLAG = false →
          hasFlag (env.poll k).events flags = false → (env.poll k).interrupt = true →
          o = WaitOutcome.interrupted) ∧
        (hasFlag (env.poll k).events wxSOCKET_LOST_FLAG = false →
          hasFlag (env.poll k).events flags = false → (env.poll k).interrupt = false →
          o = WaitOutcome.timedOut ∧ (pollOnce = true ∨ deadline ≤ (env.poll k).now)) := by
  intro n
  induction n with
  | zero =>
    intro i s hs hdec
    rw [Nat.add_zero] at hdec
    obtain ⟨o, s', hrun, hl, hr, hi, ht⟩ := waitLoop_at env deadline pollOnce flags i s hs hdec
    refine ⟨i, o, s', le_refl _, Nat.le_add_right _ _, ?_, ?_, hl, hr, hi, ht⟩
    · intro fuel hf
      exact hrun fuel (by omega)
    · intro j hj1 hj2
      omega
  | succ m ih =>
    intro i s hs hdec
    by_cases hq : hasFlag (env.poll i).events wxSOCKET_LOST_FLAG = false ∧
        hasFlag (env.poll i).events flags = false ∧ (env.poll i).interrupt = false ∧
        (pollOnce || decide (deadline ≤ (env.poll i).now)) = false
    · obtain ⟨h1, h2, h3, h4⟩ := hq
      have hdec2 : pollOnce = true ∨
          hasFlag (env.poll (i + 1 + m)).events wxSOCKET_LOST_FLAG = true ∨
          hasFlag (env.poll (i + 1 + m)).events flags = true ∨
          (env.poll (i + 1 + m)).interrupt = true ∨ deadline ≤ (env.poll (i + 1 + m)).now := by
        have e : i + 1 + m = i + (m + 1) := by omega
        rw [e]
        exact hdec
      obtain ⟨k, o, s', hk1, hk2, hrun, hquiet, hl, hr, hi, ht⟩ := ih (i + 1) s hs hdec2
      refine ⟨k, o, s', by omega, by omega, ?_, ?_, hl, hr, hi, ht⟩
      · intro fuel hf
        obtain ⟨f, rfl⟩ : ∃ f, fuel = f + 1 := ⟨fuel - 1, by omega⟩
        rw [waitLoop_step_quiet env deadline pollOnce flags f i s hs h1 h2 h3 h4]
        exact hrun f (by omega)
      · intro j hj1 hj2
        by_cases hji : j = i
        · subst hji
          exact ⟨h1, h2, h3⟩
        · exact hquiet j (by omega) hj2
    · have hdec0 : pollOnce = true ∨
          hasFlag (env.poll i).events wxSOCKET_LOST_FLAG = true ∨
          hasFlag (env.poll i).events flags = true ∨
          (env.poll i).interrupt = true ∨ deadline ≤ (env.poll i).now := by
        by_contra hc
        apply hq
        simp only [not_or] at hc
        obtain ⟨c0, c1, c2, c3, c4⟩ := hc
        refine ⟨by simpa using c1, by simpa using c2, by simpa using c3, ?_⟩
        simp [c0, c4]
      obtain ⟨o, s', hrun, hl, hr, hi, ht⟩ := waitLoop_at env deadline pollOnce flags i s hs hdec0
      refine ⟨i, o, s', le_refl _, Nat.le_add_right _ _, ?_, ?_, hl, hr, hi, ht⟩
      · intro fuel hf
        exact hrun fuel (by omega)
      · intro j hj1 hj2
        omega

/-- C1: a wait that reaches a turn `n` at which something ends it (the
connection is lost, a requested event is pending, the wait is interrupted, or
the timeout has expired) returns, given more fuel than the number `k` of the
first such turn; before turn `k` nothing was lost, pending or interrupted. If
the connection is lost at turn `k` the result is -1, whatever the requested
flags are and whether or not a requested event is pending too; otherwise, if a
requested event is pending the result is 1 (true); otherwise, if the wait was
not interrupted, the timeout has expired and the result is 0 (false). -/
theorem DoWait_result (env : Timeline) (timeout : Int) (flags : wxSocketEventFlags)
    (s : wxSocketBase) (n : Nat)
    (hn : s.waitMillis timeout = 0 ∨
      hasFlag (env.poll n).events wxSOCKET_LOST_FLAG = true ∨
      hasFlag (env.poll n).events flags = true ∨
      (env.poll n).interrupt = true ∨
      env.start + s.waitMillis timeout ≤ (env.poll n).now) :
    ∃ (k : Nat) (r : Int) (s' : wxSocketBase), k ≤ n ∧
      (∀ fuel, k < fuel → s.DoWait env fuel timeout flags = some (r, s')) ∧
      (∀ j, j < k →
        hasFlag (env.poll j).events wxSOCKET_LOST_FLAG = false ∧
        hasFlag (env.poll j).events flags = false ∧ (env.poll j).interrupt = false) ∧
      (hasFlag (env.poll k).events wxSOCKET_LOST_FLAG = true → r = -1) ∧
      (hasFlag (env.poll k).events wxSOCKET_LOST_FLAG = false →
        hasFlag (env.poll k).events flags = true → r = 1) ∧
      (hasFlag (env.poll k).events wxSOCKET_LOST_FLAG = false →
        hasFlag (env.poll k).events flags = false → (env.poll k).interrupt = false →
        r = 0 ∧ (s.waitMillis timeout = 0 ∨
          env.start + s.waitMillis timeout ≤ (env.poll k).now)) := by
  have hdec : (s.waitMillis timeout == 0) = true ∨
      hasFlag (env.poll (0 + n)).events wxSOCKET_LOST_FLAG = true ∨
      hasFlag (env.poll (0 + n)).events flags = true ∨
      (env.poll (0 + n)).interrupt = true ∨
      env.start + s.waitMillis timeout ≤ (env.poll (0 + n)).now := by
    rw [Nat.zero_add]
    rcases hn with h | h | h | h | h
    · exact Or.inl (by simp [h])
    · exact Or.inr (Or.inl h)
    · exact Or.inr (Or.inr (Or.inl h))
    · exact Or.inr (Or.inr (Or.inr (Or.inl h)))
    · exact Or.inr (Or.inr (Or.inr (Or.inr h)))
  obtain ⟨k, o, s', _, hk, hrun, hquiet, hl, hr, _, ht⟩ :=
    waitLoop_decides env (env.start + s.waitMillis timeout) (s.waitMillis timeout == 0) flags
      n 0 { s with m_interrupt := false } rfl hdec
  refine ⟨k, o.toInt, s', by omega, ?_, ?_, ?_, ?_, ?_⟩
  · intro fuel hf
    unfold wxSocketBase.DoWait
    simp only []
    rw [hrun fuel (by omega)]
    rfl
  · intro j hj
    exact hquiet j (Nat.zero_le j) hj
  · intro h
    rw [hl h]
    rfl
  · intro h1 h2
    rw [hr h1 h2]
    rfl
  · intro h1 h2 h3
    obtain ⟨ho, hd⟩ := ht h1 h2 h3
    refine ⟨by rw [ho]; rfl, ?_⟩
    rcases hd with h | h
    · exact Or.inl (by simpa using h)
    · exact Or.inr h

/-- Witness for C1: on a timeline where input is ready and the connection is
lost at once, a wait for input with a one second timeout returns -1. -/
theorem DoWait_result_witness :
    hasFlag (lostTimeline.poll 0).events wxSOCKET_LOST_FLAG = true ∧
    hasFlag (lostTimeline.poll 0).events wxSOCKET_INPUT_FLAG = true ∧
    ∃ (r : Int) (s' : wxSocketBase),
      zeroSocket.DoWait lostTimeline 1 1000 wxSOCKET_INPUT_FLAG = some (r, s') ∧ r = -1 := by
  obtain ⟨k, r, s', hk, hrun, _, hl, _, _⟩ :=
    DoWait_result lostTimeline 1000 wxSOCKET_INPUT_FLAG zeroSocket 0 (Or.inr (Or.inl (by decide)))
  have hk0 : k = 0 := by omega
  subst hk0
  exact ⟨by decide, by decide, r, s', hrun 1 (by decide), hl (by decide)⟩

theorem IsData_eq_DoWait_zero (env : Timeline) (fuel : Nat) (s : wxSocketBase) :
    s.IsData env fuel
      = (s.DoWait env fuel 0 wxSOCKET_INPUT_FLAG).map (fun r => (r.1 != 0, r.2)) := by
  unfold wxSocketBase.IsData wxSocketBase.WaitForRead wxSocketBase.DoWaitSeconds
  have e : (if (0 : Int) = -1 then (s.m_timeout : Int) * 1000 else 0 * 1000 + 0) = 0 := by
    simp
  rw [e]

theorem DoWait_zero_succ (env : Timeline) (fuel : Nat) (flags : wxSocketEventFlags)
    (s : wxSocketBase) :
    s.DoWait env (fuel + 1) 0 flags =
      some (
        if hasFlag (env.poll 0).events wxSOCKET_LOST_FLAG then
          (-1, { s with m_interrupt := (env.poll 0).interrupt })
        else if hasFlag (env.poll 0).events flags then
          (1, { s with m_interrupt := (env.poll 0).interrupt })
        else (0, { s with m_interrupt := false })) := by
  unfold wxSocketBase.DoWait
  have e : s.waitMillis 0 = 0 := by simp [wxSocketBase.waitMillis]
  simp only [e]
  rw [wxSocketBase.waitLoop]
  cases h1 : hasFlag (env.poll 0).events wxSOCKET_LOST_FLAG <;>
    cases h2 : hasFlag (env.poll 0).events flags <;>
    cases h3 : (env.poll 0).interrupt <;>
    simp [wxSocketBase.InterruptWait, WaitOutcome.toInt]

/-- C7: `IsData()` returns the result of `WaitForRead(0, 0)`, which is a wait
for the input flag with a timeout of zero: it polls once (one turn of fuel is
enough, and the answer is read off the first turn: true when input is ready or
the connection is lost) and neither the answer nor the resulting state
depends on the configured `m_timeout`. -/
theorem IsData_is_WaitForRead_zero (env : Timeline) (fuel : Nat) (s : wxSocketBase) :
    s.IsData env fuel = s.WaitForRead env fuel 0 0 ∧
    s.IsData env fuel
      = (s.DoWait env fuel 0 wxSOCKET_INPUT_FLAG).map (fun r => (r.1 != 0, r.2)) ∧
    (∃ s' : wxSocketBase, s.IsData env (fuel + 1) =
      some (hasFlag (env.poll 0).events wxSOCKET_LOST_FLAG ||
        hasFlag (env.poll 0).events wxSOCKET_INPUT_FLAG, s')) ∧
    (∀ t : Nat,
      (wxSocketBase.IsData env fuel { s with m_timeout := t }).map
          (fun r => (r.1, { r.2 with m_timeout := s.m_timeout }))
        = s.IsData env fuel) := by
  refine ⟨rfl, IsData_eq_DoWait_zero env fuel s, ?_, ?_⟩
  · rw [IsData_eq_DoWait_zero, DoWait_zero_succ]
    cases h1 : hasFlag (env.poll 0).events wxSOCKET_LOST_FLAG <;>
      cases h2 : hasFlag (env.poll 0).events wxSOCKET_INPUT_FLAG <;>
      simp
  · intro t
    cases fuel with
    | zero => rfl
    | succ f =>
      rw [IsData_eq_DoWait_zero, IsData_eq_DoWait_zero, DoWait_zero_succ, DoWait_zero_succ]
      cases h1 : hasFlag (env.poll 0).events wxSOCKET_LOST_FLAG <;>
        cases h2 : hasFlag (env.poll 0).events wxSOCKET_INPUT_FLAG <;>
        simp

/-! ## Pushback round trip -/

theorem GetPushback_after_Unread (s : wxSocketBase) (buf : List Nat)
    (hok : s.PushbackOk) (hfit : buf.length + (s.m_unrd_size - s.m_unrd_cur) < 2 ^ 32) :
    (s.Unread buf buf.length).GetPushback buf.length false =
      (buf.length, buf,
        if s.pending = [] then
          { s with m_unread := [], m_unrd_size := 0, m_unrd_cur := 0, m_lcount := buf.length }
        else
          { s with
            m_unread := buf ++ s.pending
            m_unrd_size := buf.length + (s.m_unrd_size - s.m_unrd_cur)
            m_unrd_cur := buf.length
            m_lcount := buf.length }) := by
  obtain ⟨hsize, hcur⟩ := hok
  have hd : s.pending.length = s.m_unrd_size - s.m_unrd_cur := by
    unfold wxSocketBase.pending
    rw [List.length_drop, hsize]
  have hmod : (buf.length + (s.m_unrd_size - s.m_unrd_cur)) % 2 ^ 32
      = buf.length + (s.m_unrd_size - s.m_unrd_cur) := Nat.mod_eq_of_lt hfit
  unfold wxSocketBase.GetPushback wxSocketBase.Unread wxSocketBase.Pushback
  simp only [wxSocketBase.pending, List.drop_zero, hmod, Nat.sub_zero, List.take_length,
    Bool.false_eq_true, if_false, Nat.zero_add]
  have hmin : min buf.length (buf.length + (s.m_unrd_size - s.m_unrd_cur)) = buf.length :=
    Nat.min_eq_left (Nat.le_add_right _ _)
  rw [hmin, List.take_left]
  by_cases hp : s.pending = []
  · have hz : s.m_unrd_size - s.m_unrd_cur = 0 := by rw [← hd, hp]; rfl
    have hp2 : List.drop s.m_unrd_cur s.m_unread = [] := hp
    simp [hz, hp2]
  · have hz : s.m_unrd_size - s.m_unrd_cur ≠ 0 := by
      intro h
      apply hp
      apply List.eq_nil_of_length_eq_zero
      rw [hd, h]
    have hp2 : ¬ List.drop s.m_unrd_cur s.m_unread = [] := hp
    simp [hz, hp2]

theorem Read_after_Unread (Src : Type)
    (transfer : Nat → wxSocketBase → Src → List Nat × wxSocketBase × Src)
    (s : wxSocketBase) (src : Src) (buf : List Nat)
    (hok : s.PushbackOk) (hfit : buf.length + (s.m_unrd_size - s.m_unrd_cur) < 2 ^ 32) :
    wxSocketBase.Read Src transfer (s.Unread buf buf.length) src buf.length =
      (buf,
        if s.pending = [] then
          { s with m_unread := [], m_unrd_size := 0, m_unrd_cur := 0, m_lcount := buf.length }
        else
          { s with
            m_unread := buf ++ s.pending
            m_unrd_size := buf.length + (s.m_unrd_size - s.m_unrd_cur)
            m_unrd_cur := buf.length
            m_lcount := buf.length },
        src) := by
  unfold wxSocketBase.Read
  simp only [GetPushback_after_Unread s buf hok hfit, Nat.sub_self, if_true]
  by_cases hp : s.pending = []
  · simp [hp]
  · simp [hp]

/-- C2 (as stated, refuted): on a socket whose pushback buffer already holds
the byte 9 (after `Unread` of that one byte on a socket with every field
zero), `Unread` of the two bytes 1, 2 followed by `Read` of two bytes gives
back 1, 2 with a transfer size of 2, but the pushback buffer is not empty: its
size is 3 and its cursor 2, the byte 9 still pending. -/
theorem Unread_Read_keeps_earlier_pushback :
    (wxSocketBase.Read Unit (fun _ s x => ([], s, x))
      ((zeroSocket.Unread [9] 1).Unread [1, 2] 2) () 2).1 = [1, 2] ∧
    (wxSocketBase.Read Unit (fun _ s x => ([], s, x))
      ((zeroSocket.Unread [9] 1).Unread [1, 2] 2) () 2).2.1.m_lcount = 2 ∧
    (wxSocketBase.Read Unit (fun _ s x => ([], s, x))
      ((zeroSocket.Unread [9] 1).Unread [1, 2] 2) () 2).2.1.m_unrd_size = 3 ∧
    (wxSocketBase.Read Unit (fun _ s x => ([], s, x))
      ((zeroSocket.Unread [9] 1).Unread [1, 2] 2) () 2).2.1.m_unrd_cur = 2 ∧
    (wxSocketBase.Read Unit (fun _ s x => ([], s, x))
      ((zeroSocket.Unread [9] 1).Unread [1, 2] 2) () 2).2.1.pending = [9] ∧
    ¬ ((wxSocketBase.Read Unit (fun _ s x => ([], s, x))
        ((zeroSocket.Unread [9] 1).Unread [1, 2] 2) () 2).2.1.m_unrd_size = 0 ∧
      (wxSocketBase.Read Unit (fun _ s x => ([], s, x))
        ((zeroSocket.Unread [9] 1).Unread [1, 2] 2) () 2).2.1.m_unrd_cur = 0) := by
  decide

/-- C2 (amended): for every buffer `buf` of `n` bytes and every socket whose
pushback fields describe a buffer that has room for `n` more bytes,
`Unread(buf, n)` followed at once by `Read(out, n)` yields `out` equal to
`buf`, reports a last transfer size of `n`, does not touch the underlying
source whatever the transfer from it would do, and leaves pending in the
pushback buffer exactly the bytes that were pending before; when none were,
the pushback buffer is left empty, cursor and size both zero. -/
theorem Unread_then_Read_round_trip (Src : Type)
    (transfer : Nat → wxSocketBase → Src → List Nat × wxSocketBase × Src)
    (s : wxSocketBase) (src : Src) (buf : List Nat) (n : Nat)
    (hlen : buf.length = n) (hok : s.PushbackOk)
    (hfit : n + (s.m_unrd_size - s.m_unrd_cur) < 2 ^ 32) :
    (wxSocketBase.Read Src transfer (s.Unread buf n) src n).1 = buf ∧
    (wxSocketBase.Read Src transfer (s.Unread buf n) src n).2.1.m_lcount = n ∧
    (wxSocketBase.Read Src transfer (s.Unread buf n) src n).2.2 = src ∧
    (wxSocketBase.Read Src transfer (s.Unread buf n) src n).2.1.pending = s.pending ∧
    (wxSocketBase.Read Src transfer (s.Unread buf n) src n).2.1.PushbackOk ∧
    (s.pending = [] →
      (wxSocketBase.Read Src transfer (s.Unread buf n) src n).2.1.m_unrd_size = 0 ∧
      (wxSocketBase.Read Src transfer (s.Unread buf n) src n).2.1.m_unrd_cur = 0 ∧
      (wxSocketBase.Read Src transfer (s.Unread buf n) src n).2.1.m_unread = []) := by
  subst hlen
  rw [Read_after_Unread Src transfer s src buf hok hfit]
  obtain ⟨hsize, hcur⟩ := hok
  by_cases hp : s.pending = []
  · rw [if_pos hp]
    refine ⟨rfl, rfl, rfl, ?_, ⟨rfl, le_refl _⟩, fun _ => ⟨rfl, rfl, rfl⟩⟩
    rw [hp]
    rfl
  · rw [if_neg hp]
    have hd : s.pending.length = s.m_unrd_size - s.m_unrd_cur := by
      unfold wxSocketBase.pending
      rw [List.length_drop, hsize]
    refine ⟨rfl, rfl, rfl, ?_, ⟨?_, ?_⟩, fun h => absurd h hp⟩
    · show List.drop buf.length (buf ++ s.pending) = s.pending
      exact List.drop_left _ _
    · show buf.length + (s.m_unrd_size - s.m_unrd_cur) = (buf ++ s.pending).length
      rw [List.length_append, hd]
    · show buf.length ≤ buf.length + (s.m_unrd_size - s.m_unrd_cur)
      exact Nat.le_add_right _ _

/-- Witness for C2 (amended): on a socket with every field zero, `Unread` of
the bytes 1, 2, 3 followed by `Read` of three bytes. -/
theorem Unread_then_Read_round_trip_witness :
    (wxSocketBase.Read Unit (fun _ s x => ([7], s, x))
      (zeroSocket.Unread [1, 2, 3] 3) () 3).1 = [1, 2, 3] ∧
    (wxSocketBase.Read Unit (fun _ s x => ([7], s, x))
      (zeroSocket.Unread [1, 2, 3] 3) () 3).2.1.m_lcount = 3 ∧
    (wxSocketBase.Read Unit (fun _ s x => ([7], s, x))
      (zeroSocket.Unread [1, 2, 3] 3) () 3).2.1.m_unrd_size = 0 ∧
    (wxSocketBase.Read Unit (fun _ s x => ([7], s, x))
      (zeroSocket.Unread [1, 2, 3] 3) () 3).2.1.m_unrd_cur = 0 := by
  have h := Unread_then_Read_round_trip Unit (fun _ s x => ([7], s, x)) zeroSocket ()
    [1, 2, 3] 3 rfl ⟨rfl, le_refl _⟩ (by decide)
  exact ⟨h.1, h.2.1, (h.2.2.2.2.2 rfl).1, (h.2.2.2.2.2 rfl).2.1⟩

end WxSocket
